import Mathlib

/-!
Verification of the 2D convolution program `conv2dV1.cu`.

The program convolves an H×W single-precision matrix with a square R×R
filter (R odd) using a zero-padding boundary policy, one parallel worker
per output element, dispatched on a grid of 16×16 worker tiles.

We shallowly embed the device kernel `conv2d_kernel`, the grid planner of
`main`, and `main`'s argument check.  Buffers are modelled as total
functions `Nat → ℚ` (row-major flat indexing as in the source); arithmetic
is exact (rational), matching the spec's "exactly, when stated over exact
arithmetic" reading of the numeric claims.
-/

namespace Conv2dV1

/-- The in-range test of the tap-acceptance branch in `conv2d_kernel`
(line 71 of `conv2dV1.cu`): `r >= 0 && r < H && c >= 0 && c < H`.
Note that the last comparison is against `H`, exactly as in the source. -/
def tapInRange (H : Nat) (r c : Int) : Prop :=
  0 ≤ r ∧ r < (H : Int) ∧ 0 ≤ c ∧ c < (H : Int)

instance (H : Nat) (r c : Int) : Decidable (tapInRange H r c) := by
  unfold tapInRange; infer_instance

/-- The in-range test as written in the spec's pseudocode (§4.1):
`r in [0,H) and c in [0,W)`.  This is the refinement target that
`tapInRange` is compared against. -/
def specTapInRange (H W : Nat) (r c : Int) : Prop :=
  0 ≤ r ∧ r < (H : Int) ∧ 0 ≤ c ∧ c < (W : Int)

instance (H W : Nat) (r c : Int) : Decidable (specTapInRange H W r c) := by
  unfold specTapInRange; infer_instance

/-- One output element as computed by `conv2d_kernel` for an in-range worker
at `(row, col)`: `pad = R/2`, then the nested loops
`for i in [-pad,pad], for j in [-pad,pad]` accumulate
`input[r*W + c] * filter[(i+pad)*R + (j+pad)]` for the accepted taps.
The loop counters are re-indexed by `i0 = i + pad`, `j0 = j + pad`
ranging over `[0, 2*pad]`, which is the same iteration sequence. -/
def conv2d_elem (input filt : Nat → ℚ) (H W R row col : Nat) : ℚ :=
  let pad : Nat := R / 2
  (List.range (2 * pad + 1)).foldl (fun sum (i0 : Nat) =>
    (List.range (2 * pad + 1)).foldl (fun sum (j0 : Nat) =>
      let r : Int := (row : Int) + ((i0 : Int) - (pad : Int))
      let c : Int := (col : Int) + ((j0 : Int) - (pad : Int))
      if tapInRange H r c then
        sum + input (r * (W : Int) + c).toNat * filt (i0 * R + j0)
      else sum) sum) 0

/-- The per-element convolution exactly as the spec's §4.1 pseudocode
states it: identical to `conv2d_elem` except that the column bound of the
tap test is checked against `W`. -/
def specConvElem (input filt : Nat → ℚ) (H W R row col : Nat) : ℚ :=
  let pad : Nat := R / 2
  (List.range (2 * pad + 1)).foldl (fun sum (i0 : Nat) =>
    (List.range (2 * pad + 1)).foldl (fun sum (j0 : Nat) =>
      let r : Int := (row : Int) + ((i0 : Int) - (pad : Int))
      let c : Int := (col : Int) + ((j0 : Int) - (pad : Int))
      if specTapInRange H W r c then
        sum + input (r * (W : Int) + c).toNat * filt (i0 * R + j0)
      else sum) sum) 0

/-- One worker of `conv2d_kernel`: the guard on line 64
(`if (row < H && col < W)`) decides whether the worker writes anything;
a guarded worker writes `conv2d_elem` at flat index `row * W + col`
(line 78), an unguarded one writes nothing. -/
def conv2d_worker (input filt : Nat → ℚ) (H W R row col : Nat) :
    Option (Nat × ℚ) :=
  if row < H ∧ col < W then
    some (row * W + col, conv2d_elem input filt H W R row col)
  else none

/-- The flat input-buffer indices `r*W + c` read by an in-range worker at
`(row, col)`, in loop order: one entry per accepted tap of the nested
loops of `conv2d_kernel`. -/
def conv2d_readIndices (H W R row col : Nat) : List Nat :=
  let pad : Nat := R / 2
  (List.range (2 * pad + 1)).foldl (fun acc (i0 : Nat) =>
    (List.range (2 * pad + 1)).foldl (fun acc (j0 : Nat) =>
      let r : Int := (row : Int) + ((i0 : Int) - (pad : Int))
      let c : Int := (col : Int) + ((j0 : Int) - (pad : Int))
      if tapInRange H r c then acc ++ [(r * (W : Int) + c).toNat]
      else acc) acc) []

/-- The grid planner of `main` (line 160 of `conv2dV1.cu`):
`dim3 gridDim((W + 15) / 16, (H + 15) / 16)` with a fixed 16×16 block. -/
def gridDim (H W : Nat) : Nat × Nat := ((W + 15) / 16, (H + 15) / 16)

/-- Host-side effectful operations of `main`, in the order the source
issues them on the success path. -/
inductive HostEffect
  | deviceAlloc
  | hostToDevice
  | kernelLaunch
  | deviceToHost
  | deviceFree
deriving DecidableEq

/-- The control flow of `main` as far as the argument check is concerned
(lines 85-88 of `conv2dV1.cu`): with `argc < 3` — fewer than two positional
arguments, since `argv[0]` is the program name — `main` prints a usage
message and returns `-1` before any allocation, transfer or kernel launch;
otherwise it performs the full effect sequence of the success path and
returns `0`. -/
def main_run (argc : Nat) : List HostEffect × Int :=
  if argc < 3 then ([], -1)
  else
    ([HostEffect.deviceAlloc, HostEffect.deviceAlloc, HostEffect.deviceAlloc,
      HostEffect.hostToDevice, HostEffect.hostToDevice,
      HostEffect.kernelLaunch, HostEffect.deviceToHost,
      HostEffect.deviceFree, HostEffect.deviceFree, HostEffect.deviceFree], 0)

/-- The row-major 3×3 matrix `[[1,2,3],[4,5,6],[7,8,9]]` of the spec's
end-to-end example. -/
def boxInput : Nat → ℚ := fun k => if k < 9 then (k : ℚ) + 1 else 0

/-- The 3×3 box-blur filter of the spec's end-to-end example: all nine
entries equal to `1/9`. -/
def boxFilter : Nat → ℚ := fun k => if k < 9 then 1/9 else 0

/-- The row-major 1×2 matrix `[[1, 2]]`, a minimal non-square input. -/
def exInput : Nat → ℚ := fun k => if k = 0 then 1 else if k = 1 then 2 else 0

/-- An all-ones filter buffer. -/
def exOnes : Nat → ℚ := fun _ => 1

/-! ### Summation form of the kernel loops -/

/-- A fold that conditionally accumulates equals the fold's seed plus the
guarded sum of the accumulated terms. -/
lemma foldl_guard_add (p : Nat → Prop) [DecidablePred p] (t : Nat → ℚ) :
    ∀ (n : Nat) (a : ℚ),
      (List.range n).foldl (fun s k => if p k then s + t k else s) a
        = a + ∑ k ∈ Finset.range n, if p k then t k else 0 := by
  intro n
  induction n with
  | zero => intro a; simp
  | succ n ih =>
    intro a
    rw [List.range_succ, List.foldl_append, List.foldl_cons, List.foldl_nil,
      ih, Finset.sum_range_succ]
    split <;> ring

/-- A fold that unconditionally accumulates equals the fold's seed plus the
sum of the accumulated terms. -/
lemma foldl_add_sum (t : Nat → ℚ) :
    ∀ (n : Nat) (a : ℚ),
      (List.range n).foldl (fun s k => s + t k) a
        = a + ∑ k ∈ Finset.range n, t k := by
  intro n
  induction n with
  | zero => intro a; simp
  | succ n ih =>
    intro a
    rw [List.range_succ, List.foldl_append, List.foldl_cons, List.foldl_nil,
      ih, Finset.sum_range_succ, add_assoc]

/-- The nested accumulation loops of `conv2d_kernel` compute the double
guarded sum over the filter window. -/
lemma conv2d_elem_eq_sum (input filt : Nat → ℚ) (H W R row col : Nat) :
    conv2d_elem input filt H W R row col
      = ∑ i0 ∈ Finset.range (2 * (R / 2) + 1),
          ∑ j0 ∈ Finset.range (2 * (R / 2) + 1),
            if tapInRange H ((row : Int) + ((i0 : Int) - ((R / 2 : Nat) : Int)))
                ((col : Int) + ((j0 : Int) - ((R / 2 : Nat) : Int))) then
              input ((((row : Int) + ((i0 : Int) - ((R / 2 : Nat) : Int))) * (W : Int)
                  + ((col : Int) + ((j0 : Int) - ((R / 2 : Nat) : Int)))).toNat)
                * filt (i0 * R + j0)
            else 0 := by
  unfold conv2d_elem
  simp only [foldl_guard_add, foldl_add_sum, zero_add]

end Conv2dV1

namespace Conv2dV1

/-! ### Claim theorems -/

/-- Claim C1: the spec's §4.1 contract checks the column bound of a tap
against `W`, but the kernel's line 71 checks it against `H`.  At the
failing input `H = 1`, `W = 2`, `R = 3`, input `[[1, 2]]`, all-ones
filter, output coordinate `(0, 1)`: the kernel produces `1` while the
spec's formula produces `3`. -/
theorem c1_column_bound_uses_H :
    conv2d_elem exInput exOnes 1 2 3 0 1 = 1 ∧
    specConvElem exInput exOnes 1 2 3 0 1 = 3 ∧ (1 : ℚ) ≠ 3 := by
  refine ⟨?_, ?_, ?_⟩ <;> with_unfolding_all decide

/-- Claim C2: with `R = 1` and a unit filter the output should equal the
input everywhere, but at `H = 1`, `W = 2`, input `[[1, 2]]`, the kernel's
output at `(0, 1)` is `0` while the input there is `2`: the single tap is
rejected because the column `1` fails the `c < H` test of line 71. -/
theorem c2_identity_filter_fails :
    conv2d_elem exInput exOnes 1 2 1 0 1 = 0 ∧
    exInput (0 * 2 + 1) = 2 ∧ (0 : ℚ) ≠ 2 := by
  refine ⟨?_, ?_, ?_⟩ <;> with_unfolding_all decide

/-- Claim C3: if every filter value is `0`, the value the kernel writes at
any output coordinate is exactly `0`: every accumulated product has a zero
factor. -/
theorem c3_zero_filter (input filt : Nat → ℚ) (H W R row col : Nat)
    (hf : ∀ k, filt k = 0) : conv2d_elem input filt H W R row col = 0 := by
  rw [conv2d_elem_eq_sum]
  simp [hf]

theorem c3_zero_filter_w :
    conv2d_elem exInput (fun _ => 0) 2 2 3 0 0 = 0 :=
  c3_zero_filter exInput (fun _ => 0) 2 2 3 0 0 (fun _ => rfl)

/-- Claim C4: the grid planner computes `((W + 15) / 16, (H + 15) / 16)`,
i.e. `(ceil(W/16), ceil(H/16))`, and that grid of 16×16 worker tiles
assigns at least one worker to every output coordinate in
`[0,H) × [0,W)`; the planner is a pure function of `(H, W)`. -/
theorem c4_grid_covers (H W row col : Nat) (hr : row < H) (hc : col < W) :
    gridDim H W = ((W + 15) / 16, (H + 15) / 16) ∧
    ∃ bx by0 tx ty, bx < (gridDim H W).1 ∧ by0 < (gridDim H W).2 ∧
      tx < 16 ∧ ty < 16 ∧ by0 * 16 + ty = row ∧ bx * 16 + tx = col := by
  refine ⟨rfl, col / 16, row / 16, col % 16, row % 16, ?_, ?_, ?_, ?_, ?_, ?_⟩
    <;> (try simp only [gridDim]) <;> omega

theorem c4_grid_covers_w :
    gridDim 17 17 = ((17 + 15) / 16, (17 + 15) / 16) ∧
    ∃ bx by0 tx ty, bx < (gridDim 17 17).1 ∧ by0 < (gridDim 17 17).2 ∧
      tx < 16 ∧ ty < 16 ∧ by0 * 16 + ty = 16 ∧ bx * 16 + tx = 16 :=
  c4_grid_covers 17 17 16 16 (by decide) (by decide)

/-- Claim C5: a worker whose coordinate falls outside `[0,H) × [0,W)` is
stopped by the guard of line 64 and writes nothing; a worker that does
write targets exactly the flat index `row * W + col`, which is strictly
below `H * W`. -/
theorem c5_worker_guard (input filt : Nat → ℚ) (H W R row col : Nat) :
    (¬(row < H ∧ col < W) → conv2d_worker input filt H W R row col = none) ∧
    (∀ idx v, conv2d_worker input filt H W R row col = some (idx, v) →
      row < H ∧ col < W ∧ idx = row * W + col ∧ idx < H * W) := by
  constructor
  · intro h
    unfold conv2d_worker
    exact if_neg h
  · intro idx v h
    unfold conv2d_worker at h
    split at h
    · rename_i hg
      injection h with h
      injection h with h1 _
      refine ⟨hg.1, hg.2, h1.symm, ?_⟩
      subst h1
      calc row * W + col < row * W + W := by omega
        _ = (row + 1) * W := by ring
        _ ≤ H * W := Nat.mul_le_mul (by omega) (le_refl W)
    · exact absurd h (by simp)

theorem c5_worker_guard_w :
    conv2d_worker exInput exOnes 1 2 3 2 0 = none ∧ (1 : Nat) < 1 * 2 :=
  ⟨(c5_worker_guard exInput exOnes 1 2 3 2 0).1 (by decide),
   ((c5_worker_guard exInput exOnes 1 2 3 0 1).2 1
      (conv2d_elem exInput exOnes 1 2 3 0 1)
      (by with_unfolding_all decide)).2.2.2⟩

/-- Claim C6: over exact arithmetic, convolving the pointwise sum of two
inputs equals the pointwise sum of the two convolutions, at every output
coordinate. -/
theorem c6_linear (A B filt : Nat → ℚ) (H W R row col : Nat) :
    conv2d_elem (fun k => A k + B k) filt H W R row col
      = conv2d_elem A filt H W R row col
        + conv2d_elem B filt H W R row col := by
  rw [conv2d_elem_eq_sum, conv2d_elem_eq_sum, conv2d_elem_eq_sum,
    ← Finset.sum_add_distrib]
  refine Finset.sum_congr rfl fun i0 _ => ?_
  rw [← Finset.sum_add_distrib]
  refine Finset.sum_congr rfl fun j0 _ => ?_
  split <;> ring

/-- Claim C7, counterexample: for the 3×3 example with the all-`1/9` box
filter, the corner output `(0,0)` is not the mean of the 4 valid in-range
neighbors (which would be `(1+2+4+5)/4 = 3`); the kernel produces
`(1+2+4+5)/9 = 4/3`. -/
theorem c7_corner_not_mean :
    conv2d_elem boxInput boxFilter 3 3 3 0 0 ≠ (1 + 2 + 4 + 5) / 4 := by
  with_unfolding_all decide

/-- Claim C7, amended: for the 3×3 example `[[1,2,3],[4,5,6],[7,8,9]]`
with the all-`1/9` box filter, the center output `(1,1)` is the mean of
all nine values, `5`, and the corner output `(0,0)` is one ninth of the
sum of the 4 valid in-range neighbors, `(1+2+4+5)/9 = 4/3`. -/
theorem c7_box_blur_values :
    conv2d_elem boxInput boxFilter 3 3 3 1 1 = 5 ∧
    conv2d_elem boxInput boxFilter 3 3 3 0 0 = (1 + 2 + 4 + 5) / 9 := by
  constructor <;> with_unfolding_all decide

/-- Claim C8: the computation is a deterministic function of the input
buffer, the filter buffer and the dimensions: two executions over equal
inputs produce equal results (writes and values alike). -/
theorem c8_deterministic (i1 i2 f1 f2 : Nat → ℚ) (H W R row col : Nat)
    (hi : i1 = i2) (hf : f1 = f2) :
    conv2d_worker i1 f1 H W R row col
      = conv2d_worker i2 f2 H W R row col := by
  rw [hi, hf]

theorem c8_deterministic_w :
    conv2d_worker boxInput boxFilter 3 3 3 1 1
      = conv2d_worker boxInput boxFilter 3 3 3 1 1 :=
  c8_deterministic boxInput boxInput boxFilter boxFilter 3 3 3 1 1 rfl rfl

/-- Claim C9: with fewer than two positional arguments (`argc < 3`,
`argv[0]` being the program name), `main` reports the usage error and
returns the nonzero status `-1` having performed no allocation, transfer,
launch or teardown effect. -/
theorem c9_usage_error (argc : Nat) (h : argc < 3) :
    (main_run argc).1 = [] ∧ (main_run argc).2 = -1 ∧
    (main_run argc).2 ≠ 0 := by
  unfold main_run
  rw [if_pos h]
  exact ⟨rfl, rfl, by decide⟩

theorem c9_usage_error_w :
    (main_run 2).1 = [] ∧ (main_run 2).2 = -1 ∧ (main_run 2).2 ≠ 0 :=
  c9_usage_error 2 (by decide)

/-- Claim C10: the claim that every input-buffer read of an in-range
worker targets an index below `H * W` fails on the code: at `H = 2`,
`W = 1`, `R = 3`, the worker at `(1, 0)` reads flat index `2`, which is
not below `H * W = 2` — the `c < H` test of line 71 admits a column equal
to `W`. -/
theorem c10_out_of_bounds_read :
    2 ∈ conv2d_readIndices 2 1 3 1 0 ∧ ¬(2 < 2 * 1) := by
  exact ⟨by decide, by decide⟩

end Conv2dV1
